import Mathlib

/-!
# A verification development for the `toylang` pipeline

This file gives a shallow embedding of the `toylang` compiler/interpreter
pipeline (lexing, parsing, name resolution, type checking, evaluation) and
proves properties of it.

Embedding notes, for readers diffing against the Rust sources:

* `parser.rs`, `semantic.rs`, `rast.rs`, `type_checker.rs`, `interpreter.rs`,
  `ast.rs`/`ast_common.rs`, `parse_utils.rs` and `lib.rs` are embedded
  definition by definition, keeping the source names.
* `token_stream.rs` in the tree is a stale draft: it exports none of
  `LexerError`, `take_pos`, `peek_pos`, handles none of the tokens
  `let`/`mut`/LBrace/RBrace/Colon/Plus/Minus/Asterisk/EOF that `tokens.rs`
  declares and `parser.rs` consumes, and it cannot produce the
  `TokenKind::EOF` mismatch that the crate's own integration test
  (`tests/syntax_errors.rs`) requires.  The token stream actually used by the
  crate is therefore missing from the tree, and is modelled here from the
  specification (see `read_token` below).  The token set follows the variants
  `parser.rs` consumes.
* Rust `HashMap`s are embedded as insertion-ordered association lists.  The
  one place where a `HashMap`'s *iteration order* is observable is
  `SemanticContext::resolve_named_local`, which scans `locals.values()`;
  that order is unspecified in Rust, so the embedding takes it as an explicit
  parameter `reorder : List Local → List Local` ranging over permutations of
  the stored values.  `reorder := id` (insertion order) is one admissible
  instantiation.
* Rust panics (`unwrap`, `unimplemented!`, `panic!`, `unreachable!`) are
  embedded as explicit `panicked`/`none` outcomes, never as default values.
* Machine integers: literal payloads are `i128` in the source and are
  embedded as unbounded `Int` (the lexer enforces the `i128` range, see
  `read_number`); the `as i32` cast and `i32` arithmetic are embedded through
  `wrap32`, two's-complement wrapping to 32 bits.
-/

namespace Toylang

/-! ## Tokens (`tokens.rs`, reconciled with the variants `parser.rs` consumes)

`tokens.rs` as committed carries an `Operator(OperatorToken)` variant, but
`parser.rs` pattern-matches `Token::Plus`, `Token::Minus`, `Token::Asterisk`
and `TokenKind::Minus` directly; the token type is embedded with the latter
shape, which is the one the rest of the crate compiles against. -/

inductive Token where
  | letKw
  | mutKw
  | equals
  | lparen
  | rparen
  | lbrace
  | rbrace
  | colon
  | semicolon
  | identifier (name : String)
  | integer (value : Int)
  | plus
  | minus
  | asterisk
  | eof
deriving DecidableEq, Repr

inductive TokenKind where
  | letKw
  | mutKw
  | equals
  | lparen
  | rparen
  | lbrace
  | rbrace
  | colon
  | semicolon
  | identifier
  | integer
  | plus
  | minus
  | asterisk
  | eof
deriving DecidableEq, Repr

def Token.to_kind : Token → TokenKind
  | .letKw => .letKw
  | .mutKw => .mutKw
  | .equals => .equals
  | .lparen => .lparen
  | .rparen => .rparen
  | .lbrace => .lbrace
  | .rbrace => .rbrace
  | .colon => .colon
  | .semicolon => .semicolon
  | .identifier _ => .identifier
  | .integer _ => .integer
  | .plus => .plus
  | .minus => .minus
  | .asterisk => .asterisk
  | .eof => .eof

/-! ## Character classes (`parse_utils.rs`) -/

def is_whitespace (ch : Char) : Bool :=
  ch == ' ' || ch == '\r' || ch == '\n'

def is_valid_identifier_first (ch : Char) : Bool :=
  (('A' ≤ ch && ch ≤ 'Z') || ('a' ≤ ch && ch ≤ 'z') || ch == '_')

def is_valid_in_identifier (ch : Char) : Bool :=
  (('0' ≤ ch && ch ≤ '9') || ('A' ≤ ch && ch ≤ 'Z') || ('a' ≤ ch && ch ≤ 'z') || ch == '_')

def is_ascii_digit (ch : Char) : Bool :=
  '0' ≤ ch && ch ≤ '9'

/-- The opening-brace character (byte 0x7b). -/
def lbraceChar : Char := Char.ofNat 123

/-- The closing-brace character (byte 0x7d). -/
def rbraceChar : Char := Char.ofNat 125

/-- Byte length of one codepoint in UTF-8 (the character stream tracks byte
offsets of the original source). -/
def utf8_size (c : Char) : Nat :=
  if c.toNat < 128 then 1
  else if c.toNat < 2048 then 2
  else if c.toNat < 65536 then 3
  else 4

def utf8_len (cs : List Char) : Nat :=
  (cs.map utf8_size).sum

/-! ## Lexer

Modelled from the spec: the token stream used by `parser.rs` (with
`peek_pos`/`take_pos`, a one-token lookahead, `LexerError`, and an idempotent
EOF token) is missing from the tree — `token_stream.rs` is a stale draft
incompatible with `tokens.rs`, `parser.rs` and `tests/syntax_errors.rs`.
Tokenization follows §4.2 of the specification: skip whitespace; a digit
starts a maximal digit run parsed as a wide (`i128`) signed integer, parse
failure giving an invalid-number error; a letter or underscore starts a
maximal identifier run checked against the keywords `let` and `mut`;
single-character punctuation maps 1:1 to a token kind; any other character is
an unknown-token error carrying the character and its byte offset; end of
input yields a distinguished EOF token repeatedly.  Every token records the
byte offset of its first character. -/

inductive LexerError where
  | unknownToken (ch : Char)
  | invalidNumber (text : String)
  /-- Reserved by the specification's error list; unused by the current grammar. -/
  | unterminatedString
  /-- Reserved by the specification's error list; unused by the current grammar. -/
  | unexpectedEof
deriving DecidableEq, Repr

/-- `LexerErrorCtx(offset, error)`. -/
abbrev LexerErrorCtx := Nat × LexerError

/-- Skip leading whitespace, advancing the byte offset. -/
def skip_whitespace : List Char → Nat → List Char × Nat
  | [], pos => ([], pos)
  | c :: cs, pos =>
    if is_whitespace c then skip_whitespace cs (pos + utf8_size c)
    else (c :: cs, pos)

/-- Maximal run of characters satisfying `p` (`CharStream::take_while`). -/
def take_run (p : Char → Bool) : List Char → List Char × List Char
  | [] => ([], [])
  | c :: cs =>
    if p c then
      let (run, rest) := take_run p cs
      (c :: run, rest)
    else ([], c :: cs)

def digits_to_nat (cs : List Char) : Nat :=
  cs.foldl (fun acc c => acc * 10 + (c.toNat - 48)) 0

/-- Upper bound of `i128`: a digit run parses as `i128` exactly when its value
is below `2^127`. -/
def i128_bound : Nat := 2 ^ 127

/-- One lexing step (`read_token`): from remaining characters and current byte
offset to a positioned token plus the new stream state. -/
def read_token (cs : List Char) (pos : Nat) :
    Except LexerErrorCtx ((Nat × Token) × (List Char × Nat)) :=
  let (cs, pos) := skip_whitespace cs pos
  match cs with
  | [] => .ok ((pos, .eof), ([], pos))
  | c :: rest =>
    if is_ascii_digit c then
      let (run, rest') := take_run is_ascii_digit (c :: rest)
      let n := digits_to_nat run
      if n < i128_bound then
        .ok ((pos, .integer (Int.ofNat n)), (rest', pos + utf8_len run))
      else
        .error (pos, .invalidNumber (String.mk run))
    else if is_valid_identifier_first c then
      let (run, rest') := take_run is_valid_in_identifier (c :: rest)
      let s := String.mk run
      let tok := if s == "let" then Token.letKw
                 else if s == "mut" then Token.mutKw
                 else Token.identifier s
      .ok ((pos, tok), (rest', pos + utf8_len run))
    else if c == '(' then .ok ((pos, .lparen), (rest, pos + 1))
    else if c == ')' then .ok ((pos, .rparen), (rest, pos + 1))
    else if c == lbraceChar then .ok ((pos, .lbrace), (rest, pos + 1))
    else if c == rbraceChar then .ok ((pos, .rbrace), (rest, pos + 1))
    else if c == '=' then .ok ((pos, .equals), (rest, pos + 1))
    else if c == ';' then .ok ((pos, .semicolon), (rest, pos + 1))
    else if c == ':' then .ok ((pos, .colon), (rest, pos + 1))
    else if c == '+' then .ok ((pos, .plus), (rest, pos + 1))
    else if c == '-' then .ok ((pos, .minus), (rest, pos + 1))
    else if c == '*' then .ok ((pos, .asterisk), (rest, pos + 1))
    else .error (pos, .unknownToken c)

/-- The token stream: remaining characters, current byte offset, and the
single cached `(position, token)` lookahead. -/
structure TokenStream where
  chars : List Char
  pos : Nat
  lookahead : Option (Nat × Token)
deriving DecidableEq, Repr

def TokenStream.new (cs : List Char) : TokenStream :=
  { chars := cs, pos := 0, lookahead := none }

/-- `peek_pos`: compute and cache the next token without consuming it. -/
def peek_pos (ts : TokenStream) : Except LexerErrorCtx ((Nat × Token) × TokenStream) :=
  match ts.lookahead with
  | some pt => .ok (pt, ts)
  | none =>
    match read_token ts.chars ts.pos with
    | .error e => .error e
    | .ok (pt, (cs, pos)) => .ok (pt, { chars := cs, pos := pos, lookahead := some pt })

/-- `take_pos`: return and clear the cached token, lexing fresh if the cache
is empty. -/
def take_pos (ts : TokenStream) : Except LexerErrorCtx ((Nat × Token) × TokenStream) :=
  match ts.lookahead with
  | some pt => .ok (pt, { ts with lookahead := none })
  | none =>
    match read_token ts.chars ts.pos with
    | .error e => .error e
    | .ok (pt, (cs, pos)) => .ok (pt, { chars := cs, pos := pos, lookahead := none })

/-! ## Operators and AST (`ast_common.rs`, `ast.rs`) -/

inductive BinaryOperator where
  | add
  | mul
  | sub
  | equalsOp
deriving DecidableEq, Repr

inductive UnaryOperator where
  | negate
deriving DecidableEq, Repr

inductive Operator where
  | binary (op : BinaryOperator)
  | unary (op : UnaryOperator)
deriving DecidableEq, Repr

def BinaryOperator.get_precedence : BinaryOperator → Int
  | .mul => 3
  | .add => 2
  | .sub => 2
  | .equalsOp => 0

def Operator.get_precedence : Operator → Int
  | .binary .mul => 3
  | .binary .add => 2
  | .binary .sub => 2
  | .unary .negate => 1
  | .binary .equalsOp => 0

/-- `IdentifierCtx(pos, name)`. -/
structure IdentifierCtx where
  pos : Nat
  name : String
deriving DecidableEq, Repr

/-- `ExpressionCtx(pos, Expression)`: the position of each node's first token
is stored in the node itself. -/
inductive ExpressionCtx where
  | integerConstant (pos : Nat) (value : Int)
  | loc (pos : Nat) (name : String)
  | binaryOp (pos : Nat) (op : BinaryOperator) (lhs rhs : ExpressionCtx)
  | unaryOp (pos : Nat) (op : UnaryOperator) (arg : ExpressionCtx)
deriving DecidableEq, Repr

/-- `StatementCtx(pos, Statement)`. -/
inductive StatementCtx where
  | declareVariable (pos : Nat) (name : IdentifierCtx) (is_mutable : Bool)
      (initial_type : Option IdentifierCtx) (initial_value : ExpressionCtx)
  | assignLocal (pos : Nat) (loc : IdentifierCtx) (value : ExpressionCtx)
  | block (pos : Nat) (inner : List StatementCtx)
deriving Repr

abbrev Program := List StatementCtx

/-! ## Parser (`parser.rs`)

Recursion in the Rust parser is unbounded (it terminates because each
recursion consumes input); the embedding makes every parse function
structurally recursive on an explicit fuel argument, with a distinguished
`fuelOut` outcome that no theorem below ever reaches (the driver allots fuel
linear in the input length, which is ample).  `unimplemented!()` in
`parse_statement` and the `unreachable_unchecked` in `take_identifier`/
`take_integer` are embedded as the `panicked` outcome. -/

inductive ParseError where
  | lexerError (e : LexerError)
  | unexpectedToken (expected : List TokenKind) (was : TokenKind)
deriving DecidableEq, Repr

/-- `ParseErrorCtx(offset, error)`. -/
abbrev ParseErrorCtx := Nat × ParseError

/-- Outcome of a parse function: success with the consumed stream, a
structured parse error, a Rust panic, or fuel exhaustion (embedding
artifact). -/
inductive POut (α : Type) where
  | ok (a : α) (ts : TokenStream)
  | perr (e : ParseErrorCtx)
  | panicked
  | fuelOut
deriving Repr

/-- Sequence a parse outcome. -/
def pbind (x : POut α) (f : α → TokenStream → POut β) : POut β :=
  match x with
  | .ok a ts => f a ts
  | .perr e => .perr e
  | .panicked => .panicked
  | .fuelOut => .fuelOut

/-- Sequence a lexer result into a parse outcome
(`impl From<LexerErrorCtx> for ParseErrorCtx`). -/
def lbind (x : Except LexerErrorCtx ((Nat × Token) × TokenStream))
    (f : Nat × Token → TokenStream → POut β) : POut β :=
  match x with
  | .error (pos, e) => .perr (pos, .lexerError e)
  | .ok (pt, ts) => f pt ts

/-- `TokenStream::take_of`. -/
def take_of (ts : TokenStream) (kind : TokenKind) : POut (Nat × Token) :=
  lbind (take_pos ts) fun (pos, tok) ts =>
    if tok.to_kind = kind then .ok (pos, tok) ts
    else .perr (pos, .unexpectedToken [kind] tok.to_kind)

/-- `TokenStream::take_identifier`. -/
def take_identifier (ts : TokenStream) : POut (Nat × IdentifierCtx) :=
  pbind (take_of ts .identifier) fun (pos, tok) ts =>
    match tok with
    | .identifier name => .ok (pos, ⟨pos, name⟩) ts
    | _ => .panicked

/-- `as_op` inside `parse_expression_opp`. -/
def as_op : Token → Option Operator
  | .plus => some (.binary .add)
  | .minus => some (.binary .sub)
  | .asterisk => some (.binary .mul)
  | _ => none

mutual

/-- `Parser::parse_expression_token` (primary expressions). -/
def parse_expression_token (fuel : Nat) (ts : TokenStream) : POut ExpressionCtx :=
  match fuel with
  | 0 => .fuelOut
  | fuel + 1 =>
    lbind (take_pos ts) fun (pos, first) ts =>
      match first with
      | .minus =>
        pbind (parse_expression_token fuel ts) fun arg ts =>
          .ok (.unaryOp pos .negate arg) ts
      | .integer i => .ok (.integerConstant pos i) ts
      | .identifier x => .ok (.loc pos x) ts
      | .lparen =>
        pbind (parse_expression fuel ts) fun inner ts =>
          pbind (take_of ts .rparen) fun _ ts =>
            .ok inner ts
      | _ =>
        .perr (pos, .unexpectedToken [.minus, .integer, .identifier, .lparen] first.to_kind)
termination_by structural fuel

/-- `Parser::parse_expression`. -/
def parse_expression (fuel : Nat) (ts : TokenStream) : POut ExpressionCtx :=
  match fuel with
  | 0 => .fuelOut
  | fuel + 1 =>
    pbind (parse_expression_token fuel ts) fun lhs ts =>
      parse_expression_opp fuel ts lhs 0
termination_by structural fuel

/-- `Parser::parse_expression_opp`, the outer `loop`.  Note the source guard
is `op.get_precedence() >= min_precedence` and the inner loop recurses at the
*lookahead operator's own* precedence (see `parse_expression_opp_inner`), so
equal-precedence operators attach to the right operand. -/
def parse_expression_opp (fuel : Nat) (ts : TokenStream) (lhs : ExpressionCtx)
    (min_precedence : Int) : POut ExpressionCtx :=
  match fuel with
  | 0 => .fuelOut
  | fuel + 1 =>
    lbind (peek_pos ts) fun (pos, token) ts =>
      match as_op token with
      | some (.binary op) =>
        if op.get_precedence ≥ min_precedence then
          lbind (take_pos ts) fun _ ts =>
            pbind (parse_expression_token fuel ts) fun rhs ts =>
              pbind (parse_expression_opp_inner fuel ts rhs op) fun rhs ts =>
                parse_expression_opp fuel ts (.binaryOp pos op lhs rhs) min_precedence
        else .ok lhs ts
      | _ => .ok lhs ts
termination_by structural fuel

/-- The inner `loop` of `parse_expression_opp`: while the lookahead is an
operator whose precedence is `>=` the current operator's, fold it into the
right operand at *its* precedence. -/
def parse_expression_opp_inner (fuel : Nat) (ts : TokenStream) (rhs : ExpressionCtx)
    (op : BinaryOperator) : POut ExpressionCtx :=
  match fuel with
  | 0 => .fuelOut
  | fuel + 1 =>
    lbind (peek_pos ts) fun (_, token) ts =>
      match as_op token with
      | some next_op =>
        if next_op.get_precedence ≥ (Operator.binary op).get_precedence then
          pbind (parse_expression_opp fuel ts rhs next_op.get_precedence) fun rhs ts =>
            parse_expression_opp_inner fuel ts rhs op
        else .ok rhs ts
      | none => .ok rhs ts
termination_by structural fuel

end

mutual

/-- `Parser::parse_assignment`. -/
def parse_assignment (fuel : Nat) (ts : TokenStream) : POut StatementCtx :=
  match fuel with
  | 0 => .fuelOut
  | fuel + 1 =>
    pbind (take_identifier ts) fun (pos, localName) ts =>
      pbind (take_of ts .equals) fun _ ts =>
        pbind (parse_expression fuel ts) fun value ts =>
          pbind (take_of ts .semicolon) fun _ ts =>
            .ok (.assignLocal pos localName value) ts

/-- `Parser::parse_declaration`. -/
def parse_declaration (fuel : Nat) (ts : TokenStream) : POut StatementCtx :=
  match fuel with
  | 0 => .fuelOut
  | fuel + 1 =>
    pbind (take_of ts .letKw) fun (pos, _) ts =>
      lbind (peek_pos ts) fun (_, next) ts =>
        pbind (if next = Token.mutKw then
                 lbind (take_pos ts) fun _ ts => .ok true ts
               else .ok false ts) fun is_mutable ts =>
          pbind (take_identifier ts) fun (_, name) ts =>
            lbind (peek_pos ts) fun (_, next) ts =>
              pbind (if next = Token.colon then
                       lbind (take_pos ts) fun _ ts =>
                         pbind (take_identifier ts) fun (_, ty) ts =>
                           .ok (some ty) ts
                     else .ok none ts) fun initial_type ts =>
                pbind (take_of ts .equals) fun _ ts =>
                  pbind (parse_expression fuel ts) fun initial_value ts =>
                    pbind (take_of ts .semicolon) fun _ ts =>
                      .ok (.declareVariable pos name is_mutable initial_type initial_value) ts

/-- `Parser::parse_block` (its statement `loop`). -/
def parse_block_inner (fuel : Nat) (ts : TokenStream) (acc : List StatementCtx) :
    POut (List StatementCtx) :=
  match fuel with
  | 0 => .fuelOut
  | fuel + 1 =>
    lbind (peek_pos ts) fun (_, next) ts =>
      if next = Token.rbrace then
        lbind (take_pos ts) fun _ ts => .ok acc ts
      else
        pbind (parse_statement fuel ts) fun st ts =>
          parse_block_inner fuel ts (acc ++ [st])
termination_by structural fuel

/-- `Parser::parse_block`. -/
def parse_block (fuel : Nat) (ts : TokenStream) : POut StatementCtx :=
  match fuel with
  | 0 => .fuelOut
  | fuel + 1 =>
    pbind (take_of ts .lbrace) fun (pos, _) ts =>
      pbind (parse_block_inner fuel ts []) fun inner ts =>
        .ok (.block pos inner) ts
termination_by structural fuel

/-- `Parser::parse_statement`.  The catch-all arm is `unimplemented!()` in
the source: a statement starting with any other token panics. -/
def parse_statement (fuel : Nat) (ts : TokenStream) : POut StatementCtx :=
  match fuel with
  | 0 => .fuelOut
  | fuel + 1 =>
    lbind (peek_pos ts) fun (_, first) ts =>
      match first with
      | .letKw => parse_declaration fuel ts
      | .lbrace => parse_block fuel ts
      | .identifier _ => parse_assignment fuel ts
      | _ => .panicked
termination_by structural fuel

/-- `Parser::parse_program` (its statement `loop`). -/
def parse_program_inner (fuel : Nat) (ts : TokenStream) (acc : List StatementCtx) :
    POut (List StatementCtx) :=
  match fuel with
  | 0 => .fuelOut
  | fuel + 1 =>
    lbind (peek_pos ts) fun (_, next) ts =>
      if next = Token.eof then .ok acc ts
      else
        pbind (parse_statement fuel ts) fun st ts =>
          parse_program_inner fuel ts (acc ++ [st])
termination_by structural fuel

end

/-- `Parser::parse_program`. -/
def parse_program (fuel : Nat) (ts : TokenStream) : POut Program :=
  parse_program_inner fuel ts []

/-! ## Resolved AST (`rast.rs`) and the semantic resolver (`semantic.rs`)

`ScopeId`, `LocalId` and `UserTypeId` are newtypes over `usize`, embedded as
`Nat`.  `UserTypeId`/`UserType` are reserved and never created by the
pipeline (`declare_type` has no caller), so the user-type table is omitted
from the embedded context. -/

inductive PrimitiveType where
  | i32
  | bool
deriving DecidableEq, Repr

inductive TypeRef where
  | primitive (t : PrimitiveType)
  /-- Reserved: the pipeline never constructs a user type. -/
  | userType (id : Nat)
deriving DecidableEq, Repr

/-- `rast.rs` `Local`. -/
structure Local where
  id : Nat
  scope_id : Nat
  initial_type : Option TypeRef
  name : String
deriving DecidableEq, Repr

/-- `rast.rs` `Scope`.  `locals` is a `HashSet<LocalId>` in the source; it is
written during `declare_local` and never read by the pipeline, and is
embedded as the list of inserted ids. -/
structure Scope where
  id : Nat
  parent : Option Nat
  locals : List Nat
deriving DecidableEq, Repr

inductive RastExpressionCtx where
  | integerConstant (pos : Nat) (value : Int)
  | loc (pos : Nat) (local_id : Nat)
  | unaryOp (pos : Nat) (op : UnaryOperator) (arg : RastExpressionCtx)
  | binaryOp (pos : Nat) (op : BinaryOperator) (lhs rhs : RastExpressionCtx)
deriving DecidableEq, Repr

inductive RastStatementCtx where
  | block (pos : Nat) (scope_id : Nat) (inner : List RastStatementCtx)
  | assignLocal (pos : Nat) (local_id : Nat) (value : RastExpressionCtx)
deriving Repr

abbrev RastProgram := List RastStatementCtx

/-- `SemanticContext`: the `scopes` and `locals` maps are embedded as lists
of their entries in insertion order (their keys are the `id` fields, issued
by the monotone counters; entries are only ever inserted at fresh keys). -/
structure SemanticContext where
  scopes : List Scope
  locals : List Local
  next_scope_id : Nat
  next_local_id : Nat
deriving Repr

/-- The iteration order of `locals.values()` used by
`resolve_named_local`: an arbitrary permutation of the stored entries.
Rust leaves this order unspecified (and it differs between `HashMap`
instances); `id` models insertion order. -/
abbrev ReorderFn := List Local → List Local

inductive SemanticError where
  | unknownType (name : String)
  | unknownLocal (name : String)
deriving DecidableEq, Repr

/-- `SemanticErrorCtx(offset, error)`. -/
abbrev SemanticErrorCtx := Nat × SemanticError

def SemanticContext.new : SemanticContext :=
  { scopes := [], locals := [], next_scope_id := 0, next_local_id := 0 }

/-- `scopes.get(&scope_id)`: the map lookup, by the `id` key. -/
def findScope (ctx : SemanticContext) (scope_id : Nat) : Option Scope :=
  ctx.scopes.find? (fun s => s.id == scope_id)

/-- `locals.get(&local_id)`: the map lookup, by the `id` key. -/
def findLocal (ctx : SemanticContext) (local_id : Nat) : Option Local :=
  ctx.locals.find? (fun l => l.id == local_id)

/-- `SemanticContext::declare_scope`: issue the next scope id and insert a
fresh scope with the given parent. -/
def declare_scope (ctx : SemanticContext) (parent : Option Nat) : Nat × SemanticContext :=
  let id := ctx.next_scope_id
  (id, { ctx with
           scopes := ctx.scopes ++ [{ id := id, parent := parent, locals := [] }],
           next_scope_id := id + 1 })

/-- `scope.locals.insert(id)` on the owning scope (and only it). -/
def register_local (scope_id local_id : Nat) (s : Scope) : Scope :=
  if s.id == scope_id then { s with locals := s.locals ++ [local_id] } else s

/-- `SemanticContext::declare_local`: issue the next local id, register it in
the owning scope's local set (the source `unwrap`s the scope lookup; every
pipeline call passes an existing scope, and on an absent scope this embedding
leaves the scope table unchanged where the source would panic), and insert
the local record. -/
def declare_local (ctx : SemanticContext) (scope_id : Nat) (name : String)
    (initial_type : Option TypeRef) : Nat × SemanticContext :=
  let id := ctx.next_local_id
  (id, { ctx with
           scopes := ctx.scopes.map (register_local scope_id id),
           locals := ctx.locals ++ [{ id := id, scope_id := scope_id,
                                      initial_type := initial_type, name := name }],
           next_local_id := id + 1 })

/-- `SemanticContext::resolve_named_type`. -/
def resolve_named_type (ident : IdentifierCtx) : Except SemanticErrorCtx TypeRef :=
  match ident.name with
  | "i32" => .ok (.primitive .i32)
  | "bool" => .ok (.primitive .bool)
  | _ => .error (ident.pos, .unknownType ident.name)

/-- The parent-chain walk of `SemanticContext::is_local_within_scope`,
searching for `target` (the local's owning scope) from `scope_id` upward.
The source is an unbounded `loop`; on every context the pipeline builds, the
strict parent ordering (see `Reachable_invariant`) makes the chain strictly
decreasing, so `scope_id + 1` steps always suffice and the fuelled walk
coincides with the source.  A failed scope lookup is a source panic, embedded
as `false` (no pipeline call reaches it). -/
def within_scope_walk (ctx : SemanticContext) : Nat → Nat → Nat → Bool
  | 0, _, _ => false
  | fuel + 1, scope_id, target =>
    match findScope ctx scope_id with
    | none => false
    | some scope =>
      if scope.id == target then true
      else
        match scope.parent with
        | some parent => within_scope_walk ctx fuel parent target
        | none => false

/-- `SemanticContext::is_local_within_scope`: the local lookup `unwrap`
(panic when absent, embedded as `false`; no pipeline call reaches it)
followed by the parent-chain walk. -/
def is_local_within_scope (ctx : SemanticContext) (scope_id local_id : Nat) : Bool :=
  match findLocal ctx local_id with
  | none => false
  | some l => within_scope_walk ctx (scope_id + 1) scope_id l.scope_id

/-- `SemanticContext::resolve_named_local`: scan `locals.values()` — in the
map's iteration order, here the explicit `reorder` — for the *first* local
with a matching name (`find`), take its id (`map`), then keep it only if it
is visible from `scope_id` (`filter`), the composition written out as a
match. -/
def resolve_named_local (reorder : ReorderFn) (ctx : SemanticContext)
    (scope_id : Nat) (name : String) : Option Nat :=
  match (reorder ctx.locals).find? (fun l => l.name == name) with
  | none => none
  | some l => if is_local_within_scope ctx scope_id l.id then some l.id else none

/-- `SemanticContext::resolve_local`. -/
def resolve_local (ctx : SemanticContext) (scope_id local_id : Nat) : Option Local :=
  (findLocal ctx local_id).filter (fun l => is_local_within_scope ctx scope_id l.id)

/-- The mutation performed through `SemanticContext::resolve_local_mut` by
the type checker: overwrite one local's `initial_type`. -/
def setLocalType (ctx : SemanticContext) (local_id : Nat) (t : Option TypeRef) : SemanticContext :=
  { ctx with locals := ctx.locals.map (fun l =>
      if l.id == local_id then { l with initial_type := t } else l) }

/-- `transform_expression`: resolution does not mutate the context. -/
def transform_expression (reorder : ReorderFn) (ctx : SemanticContext) (scope_id : Nat) :
    ExpressionCtx → Except SemanticErrorCtx RastExpressionCtx
  | .integerConstant pos x => .ok (.integerConstant pos x)
  | .loc pos name =>
    match resolve_named_local reorder ctx scope_id name with
    | some local_id => .ok (.loc pos local_id)
    | none => .error (pos, .unknownLocal name)
  | .unaryOp pos op arg => do
    let value ← transform_expression reorder ctx scope_id arg
    .ok (.unaryOp pos op value)
  | .binaryOp pos op lhs rhs => do
    let lhs' ← transform_expression reorder ctx scope_id lhs
    let rhs' ← transform_expression reorder ctx scope_id rhs
    .ok (.binaryOp pos op lhs' rhs')

/-- The `initial_type` arm of `DeclareVariable` resolution: resolve the
annotation when present (`?`-propagating its error), else no declared type. -/
def resolve_declared_type (initial_type : Option IdentifierCtx) :
    Except SemanticErrorCtx (Option TypeRef) :=
  match initial_type with
  | some x =>
    match resolve_named_type x with
    | .error e => .error e
    | .ok t => .ok (some t)
  | none => .ok none

mutual

/-- `transform_statement`.  Note (source lines 198–214): for `AssignLocal`
both the error and the resolved node reuse the *identifier's* offset, and the
value is transformed only after the target resolves; for `DeclareVariable`
(lines 216–233) the annotated type resolves first, then the local is declared,
and only then is the initial value transformed — so the new local is already
in scope inside its own initializer. -/
def transform_statement (reorder : ReorderFn) (ctx : SemanticContext) (scope_id : Nat)
    (st : StatementCtx) : Except SemanticErrorCtx (RastStatementCtx × SemanticContext) :=
  match st with
  | .block pos inner =>
    let (block_scope, ctx) := declare_scope ctx (some scope_id)
    match transform_statements reorder ctx block_scope inner with
    | .error e => .error e
    | .ok (inner', ctx) => .ok (.block pos block_scope inner', ctx)
  | .assignLocal _pos ident value =>
    match resolve_named_local reorder ctx scope_id ident.name with
    | some local_id =>
      match transform_expression reorder ctx scope_id value with
      | .error e => .error e
      | .ok value' => .ok (.assignLocal ident.pos local_id value', ctx)
    | none => .error (ident.pos, .unknownLocal ident.name)
  | .declareVariable pos name _is_mutable initial_type initial_value =>
    match resolve_declared_type initial_type with
    | .error e => .error e
    | .ok ty =>
      let (local_id, ctx) := declare_local ctx scope_id name.name ty
      match transform_expression reorder ctx scope_id initial_value with
      | .error e => .error e
      | .ok value' => .ok (.assignLocal pos local_id value', ctx)
termination_by structural st

def transform_statements (reorder : ReorderFn) (ctx : SemanticContext) (scope_id : Nat)
    (sts : List StatementCtx) :
    Except SemanticErrorCtx (List RastStatementCtx × SemanticContext) :=
  match sts with
  | [] => .ok ([], ctx)
  | st :: rest =>
    match transform_statement reorder ctx scope_id st with
    | .error e => .error e
    | .ok (st', ctx) =>
      match transform_statements reorder ctx scope_id rest with
      | .error e => .error e
      | .ok (rest', ctx) => .ok (st' :: rest', ctx)
termination_by structural sts

end

/-- `transform_program`: fresh context, one root scope (id 0), then the
top-level statements in order. -/
def transform_program (reorder : ReorderFn) (statements : Program) :
    Except SemanticErrorCtx (SemanticContext × RastProgram) :=
  let (root_scope, ctx) := declare_scope SemanticContext.new none
  match transform_statements reorder ctx root_scope statements with
  | .error e => .error e
  | .ok (statements', ctx) => .ok (ctx, statements')

/-! ## Type checker (`type_checker.rs`)

The committed `type_checker.rs` imports its node types from the stale
`mir.rs`, whose expression type lacks the `UnaryOp`/`BinaryOp` variants the
checker matches on; as `lib.rs`'s `eval` composes the checker directly over
the resolver's output, the checker is embedded over the resolved AST.  Its
panics are explicit in the outcome type: `visit_statement` `unwrap`s the
result of `resolve_expression` (line 115) and of `resolve_local_mut`
(line 116), and `resolve_expression` `unwrap`s `resolve_local` (line 67). -/

inductive TypeError where
  | notAssignable (target : TypeRef) (x : TypeRef)
  | invalidUnaryOpArg (op : UnaryOperator) (x : TypeRef)
  | invalidBinaryOpArgs (op : BinaryOperator) (lhs : TypeRef) (rhs : TypeRef)
  | untypedLocal (local_id : Nat)
deriving DecidableEq, Repr

/-- `TypeErrorCtx(offset, error)`. -/
abbrev TypeErrorCtx := Nat × TypeError

/-- Outcome of a type-checker function: success, a structured type error, or
a Rust panic. -/
inductive TCR (α : Type) where
  | ok (a : α)
  | terr (e : TypeErrorCtx)
  | panicked
deriving Repr

/-- `is_assignable` (its `&mut SemanticContext` argument is unused in the
source and dropped here): primitive types are assignable exactly when equal;
every combination involving a user type is rejected. -/
def is_assignable (a b : TypeRef) : Bool :=
  match a, b with
  | .primitive a, .primitive b => a == b
  | _, _ => false

/-- `resolve_expression` of `type_checker.rs`. -/
def resolve_expression (ctx : SemanticContext) (scope_id : Nat) :
    RastExpressionCtx → TCR TypeRef
  | .integerConstant _ _ => .ok (.primitive .i32)
  | .loc pos local_id =>
    match resolve_local ctx scope_id local_id with
    | none => .panicked
    | some l =>
      match l.initial_type with
      | some t => .ok t
      | none => .terr (pos, .untypedLocal local_id)
  | .unaryOp pos op x =>
    match resolve_expression ctx scope_id x with
    | .ok x_type =>
      match op, x_type with
      | .negate, .primitive .i32 => .ok (.primitive .i32)
      | _, _ => .terr (pos, .invalidUnaryOpArg op x_type)
    | r => match r with
           | .terr e => .terr e
           | _ => .panicked
  | .binaryOp pos op lhs rhs =>
    match resolve_expression ctx scope_id lhs with
    | .terr e => .terr e
    | .panicked => .panicked
    | .ok lhs_type =>
      match resolve_expression ctx scope_id rhs with
      | .terr e => .terr e
      | .panicked => .panicked
      | .ok rhs_type =>
        match lhs_type, op, rhs_type with
        | .primitive .i32, .add, .primitive .i32 => .ok (.primitive .i32)
        | .primitive .i32, .sub, .primitive .i32 => .ok (.primitive .i32)
        | .primitive .i32, .mul, .primitive .i32 => .ok (.primitive .i32)
        | _, _, _ => .terr (pos, .invalidBinaryOpArgs op lhs_type rhs_type)

mutual

/-- `visit_statement`.  In the `AssignLocal` arm the source `unwrap`s the
value's type (`resolve_expression(..).unwrap()`, line 115): a structured type
error arising inside the right-hand expression becomes a panic, not an `Err`.
It then `unwrap`s `resolve_local_mut`.  If the target has no type yet it
adopts the value's type; otherwise an unassignable value type is a
`NotAssignable` error at the statement's offset. -/
def visit_statement (ctx : SemanticContext) (scope_id : Nat) (st : RastStatementCtx) :
    TCR SemanticContext :=
  match st with
  | .assignLocal pos local_id value =>
    match resolve_expression ctx scope_id value with
    | .terr _ => .panicked
    | .panicked => .panicked
    | .ok value_type =>
      match (if is_local_within_scope ctx scope_id local_id
             then findLocal ctx local_id else none) with
      | none => .panicked
      | some l =>
        match l.initial_type with
        | none => .ok (setLocalType ctx local_id (some value_type))
        | some annotated_type =>
          if is_assignable annotated_type value_type then .ok ctx
          else .terr (pos, .notAssignable annotated_type value_type)
  | .block _pos scope_id' inner => visit_statements ctx scope_id' inner
termination_by structural st

def visit_statements (ctx : SemanticContext) (scope_id : Nat)
    (sts : List RastStatementCtx) : TCR SemanticContext :=
  match sts with
  | [] => .ok ctx
  | st :: rest =>
    match visit_statement ctx scope_id st with
    | .terr e => .terr e
    | .panicked => .panicked
    | .ok ctx => visit_statements ctx scope_id rest
termination_by structural sts

end

/-- `visit_program`: every top-level statement is checked in scope 0. -/
def visit_program (ctx : SemanticContext) (program : RastProgram) : TCR SemanticContext :=
  visit_statements ctx 0 program

/-! ## Evaluator (`interpreter.rs`)

Runtime values and the tree-walking interpreter.  The runtime environment
(`Interpreter::locals`, a `HashMap<LocalId, Value>`) is embedded as an
association list with in-place update; it is only ever read through `get`.
`evaluate`'s panics — a missing local (`unwrap`, line 34), a non-`I32`
operand of negation (line 39), a tag mismatch at a binary operator
(`unreachable!`, line 50) — are embedded as `none`.  `i32` arithmetic is
embedded with two's-complement wrapping (`wrap32`); the `i128`-to-`i32`
literal cast `*i as i32` (line 33) is exactly `wrap32`. -/

inductive Value where
  | i32 (n : Int)
  | bool (b : Bool)
deriving DecidableEq, Repr

/-- Two's-complement wrapping into the `i32` range. -/
def wrap32 (n : Int) : Int :=
  (n + 2 ^ 31) % 2 ^ 32 - 2 ^ 31

abbrev Env := List (Nat × Value)

def envLookup (env : Env) (k : Nat) : Option Value :=
  (env.find? (fun p => p.1 == k)).map (fun p => p.2)

/-- `HashMap::insert`: overwrite the entry if the key exists, append
otherwise. -/
def envInsert (k : Nat) (v : Value) : Env → Env
  | [] => [(k, v)]
  | (k', v') :: rest =>
    if k' == k then (k, v) :: rest else (k', v') :: envInsert k v rest

/-- `Interpreter::evaluate`. -/
def evaluate (env : Env) : RastExpressionCtx → Option Value
  | .integerConstant _ i => some (.i32 (wrap32 i))
  | .loc _ local_id => envLookup env local_id
  | .unaryOp _ .negate arg =>
    match evaluate env arg with
    | some (.i32 i) => some (.i32 (wrap32 (-i)))
    | _ => none
  | .binaryOp _ op lhs rhs =>
    match evaluate env lhs, evaluate env rhs with
    | some (.i32 a), some (.i32 b) =>
      match op with
      | .add => some (.i32 (wrap32 (a + b)))
      | .sub => some (.i32 (wrap32 (a - b)))
      | .mul => some (.i32 (wrap32 (a * b)))
      | .equalsOp => none
    | _, _ => none

mutual

/-- `Interpreter::execute`. -/
def execute (env : Env) (st : RastStatementCtx) : Option Env :=
  match st with
  | .assignLocal _ local_id value =>
    match evaluate env value with
    | some rhs => some (envInsert local_id rhs env)
    | none => none
  | .block _ _ inner => execute_statements env inner
termination_by structural st

def execute_statements (env : Env) (sts : List RastStatementCtx) : Option Env :=
  match sts with
  | [] => some env
  | st :: rest =>
    match execute env st with
    | some env => execute_statements env rest
    | none => none
termination_by structural sts

end

/-- `Interpreter::execute_program`. -/
def execute_program (env : Env) (program : RastProgram) : Option Env :=
  execute_statements env program

/-! ## The pipeline (`lib.rs` `eval`) -/

inductive EvalOutcome where
  | parseError (e : ParseErrorCtx)
  | semanticError (e : SemanticErrorCtx)
  | typeError (e : TypeErrorCtx)
  /-- A phase panicked (`unwrap`/`unimplemented!`/`unreachable!`). -/
  | panicked
  /-- Parser fuel exhausted — an embedding artifact never reached below. -/
  | fuelOut
  /-- Success; carries the interpreter's final `locals` environment (the
  source's `eval` returns `Ok(None)` and drops it, but `main.rs` prints it,
  and it is the observable result of evaluation). -/
  | ok (env : Env)
deriving Repr, DecidableEq

/-- Fuel allotted to the parser: ample for any input of the given length
(every level of parser recursion and every loop iteration consumes at least
one token, and tokens occupy at least one character). -/
def parse_fuel (cs : List Char) : Nat :=
  4 * cs.length + 16

/-- `eval` of `lib.rs`: lex + parse, resolve, type-check, evaluate, with
each phase short-circuiting on the previous one's error. -/
def evalO (reorder : ReorderFn) (src : String) : EvalOutcome :=
  match parse_program (parse_fuel src.toList) (TokenStream.new src.toList) with
  | .perr e => .parseError e
  | .panicked => .panicked
  | .fuelOut => .fuelOut
  | .ok program _ =>
    match transform_program reorder program with
    | .error e => .semanticError e
    | .ok (ctx, program) =>
      match visit_program ctx program with
      | .terr e => .typeError e
      | .panicked => .panicked
      | .ok _ =>
        match execute_program [] program with
        | none => .panicked
        | some env => .ok env

/-- The pipeline from a parsed program (resolution, type checking,
evaluation), exactly the tail of `evalO`. -/
def evalFromAst (reorder : ReorderFn) (program : Program) : EvalOutcome :=
  match transform_program reorder program with
  | .error e => .semanticError e
  | .ok (ctx, program) =>
    match visit_program ctx program with
    | .terr e => .typeError e
    | .panicked => .panicked
    | .ok _ =>
      match execute_program [] program with
      | none => .panicked
      | some env => .ok env

/-- Parse alone (lexer + parser), with the driver's fuel. -/
def parseStage (src : String) : POut Program :=
  parse_program (parse_fuel src.toList) (TokenStream.new src.toList)

/-- The parse result, if parsing succeeded. -/
def POut.result : POut α → Option α
  | .ok a _ => some a
  | _ => none

/-! ## General list lemmas used below -/

theorem find?_mem_unique {α : Type} (p : α → Bool) :
    ∀ (l : List α) (a : α), a ∈ l → p a = true → (∀ x ∈ l, p x = true → x = a) →
      l.find? p = some a := by
  intro l
  induction l with
  | nil => intro a ha _ _; cases ha
  | cons h t ih =>
    intro a ha hpa huniq
    by_cases hph : p h = true
    · have hha : h = a := huniq h (List.mem_cons_self h t) hph
      subst hha
      simp [List.find?_cons_of_pos _ hph]
    · have hph' : p h = false := by simpa using hph
      rcases List.mem_cons.mp ha with rfl | hat
      · exact absurd hpa hph
      · rw [List.find?_cons_of_neg _ (by simp [hph'])]
        exact ih a hat hpa (fun x hx hpx => huniq x (List.mem_cons_of_mem _ hx) hpx)

theorem find?_isSome_of_mem {α : Type} (p : α → Bool) :
    ∀ (l : List α) (a : α), a ∈ l → p a = true → ∃ b, l.find? p = some b := by
  intro l
  induction l with
  | nil => intro a ha _; cases ha
  | cons h t ih =>
    intro a ha hpa
    by_cases hph : p h = true
    · exact ⟨h, List.find?_cons_of_pos _ hph⟩
    · rcases List.mem_cons.mp ha with rfl | hat
      · exact absurd hpa hph
      · rcases ih a hat hpa with ⟨b, hb⟩
        refine ⟨b, ?_⟩
        rw [List.find?_cons_of_neg _ (by simpa using hph)]
        exact hb

/-- In a list whose `id` fields are strictly increasing, an `id` determines
the element. -/
theorem pairwise_lt_id_unique {l : List Local}
    (h : l.Pairwise (fun a b => a.id < b.id)) (x y : Local)
    (hx : x ∈ l) (hy : y ∈ l) (hxy : x.id = y.id) : x = y := by
  induction l with
  | nil => cases hx
  | cons a t ih =>
    rcases List.pairwise_cons.mp h with ⟨ha, ht⟩
    rcases List.mem_cons.mp hx with rfl | hx' <;> rcases List.mem_cons.mp hy with rfl | hy'
    · rfl
    · exact absurd hxy (by have := ha y hy'; omega)
    · exact absurd hxy (by have := ha x hx'; omega)
    · exact ih ht hx' hy'

/-! ## Reachable resolution contexts and their invariants

A context is reachable when it is built from the fresh context by
`declare_scope`/`declare_local` calls whose scope arguments are ids the
context has already issued — which is the only way the resolver ever calls
them (the root is declared first, and each block's scope is declared before
it is used; `declare_local` on a never-issued scope id would panic in the
source). -/

inductive Reachable : SemanticContext → Prop where
  | new : Reachable SemanticContext.new
  | scope (ctx : SemanticContext) (parent : Option Nat) :
      Reachable ctx → (∀ p, parent = some p → p < ctx.next_scope_id) →
      Reachable (declare_scope ctx parent).2
  | loc (ctx : SemanticContext) (scope_id : Nat) (name : String) (ty : Option TypeRef) :
      Reachable ctx → scope_id < ctx.next_scope_id →
      Reachable (declare_local ctx scope_id name ty).2

/-- The structural invariant of reachable contexts: scope and local ids are
issued in strictly increasing order and lie below their counters, every
issued scope id is present, and every parent id is strictly below its
child's id. -/
def ContextInv (ctx : SemanticContext) : Prop :=
  (∀ s ∈ ctx.scopes, s.id < ctx.next_scope_id) ∧
  ctx.scopes.Pairwise (fun a b => a.id < b.id) ∧
  (∀ i, i < ctx.next_scope_id → ∃ s ∈ ctx.scopes, s.id = i) ∧
  (∀ s ∈ ctx.scopes, ∀ p, s.parent = some p → p < s.id) ∧
  (∀ l ∈ ctx.locals, l.id < ctx.next_local_id) ∧
  ctx.locals.Pairwise (fun a b => a.id < b.id)

theorem Reachable.invariant {ctx : SemanticContext} (h : Reachable ctx) : ContextInv ctx := by
  induction h with
  | new =>
    refine ⟨?_, ?_, ?_, ?_, ?_, ?_⟩ <;> simp [SemanticContext.new]
  | scope ctx parent _ hp ih =>
    obtain ⟨hb, hpw, hsurj, hpar, hlb, hlpw⟩ := ih
    refine ⟨?_, ?_, ?_, ?_, ?_, ?_⟩
    · intro s hs
      simp only [declare_scope, List.mem_append, List.mem_singleton] at hs
      rcases hs with hs | rfl
      · exact Nat.lt_succ_of_lt (hb s hs)
      · exact Nat.lt_succ_self _
    · simp only [declare_scope]
      rw [List.pairwise_append]
      refine ⟨hpw, List.pairwise_singleton _ _, ?_⟩
      intro a ha b hb'
      simp only [List.mem_singleton] at hb'
      subst hb'
      exact hb a ha
    · intro i hi
      simp only [declare_scope] at hi ⊢
      rcases Nat.lt_succ_iff_lt_or_eq.mp hi with hi' | rfl
      · obtain ⟨s, hs, hsid⟩ := hsurj i hi'
        exact ⟨s, List.mem_append_left _ hs, hsid⟩
      · exact ⟨_, List.mem_append_right _ (List.mem_singleton_self _), rfl⟩
    · intro s hs p hps
      simp only [declare_scope, List.mem_append, List.mem_singleton] at hs
      rcases hs with hs | rfl
      · exact hpar s hs p hps
      · exact hp p hps
    · intro l hl
      simpa [declare_scope] using hlb l (by simpa [declare_scope] using hl)
    · simpa [declare_scope] using hlpw
  | loc ctx scope_id name ty _ hsc ih =>
    obtain ⟨hb, hpw, hsurj, hpar, hlb, hlpw⟩ := ih
    have hfid : ∀ a b : Nat, ∀ s : Scope,
        (register_local a b s).id = s.id ∧ (register_local a b s).parent = s.parent := by
      intro a b s
      unfold register_local
      split <;> exact ⟨rfl, rfl⟩
    refine ⟨?_, ?_, ?_, ?_, ?_, ?_⟩
    · intro s hs
      simp only [declare_local, List.mem_map] at hs
      obtain ⟨s0, hs0, rfl⟩ := hs
      simpa [declare_local, (hfid _ _ s0).1] using hb s0 hs0
    · simp only [declare_local]
      exact List.Pairwise.map _ (fun a b hab => by
        rw [(hfid _ _ a).1, (hfid _ _ b).1]; exact hab) hpw
    · intro i hi
      simp only [declare_local] at hi ⊢
      obtain ⟨s, hs, hsid⟩ := hsurj i hi
      exact ⟨_, List.mem_map_of_mem _ hs, by rw [(hfid _ _ s).1]; exact hsid⟩
    · intro s hs p hps
      simp only [declare_local, List.mem_map] at hs
      obtain ⟨s0, hs0, rfl⟩ := hs
      rw [(hfid _ _ s0).1]
      exact hpar s0 hs0 p (by rw [← (hfid _ _ s0).2]; exact hps)
    · intro l hl
      simp only [declare_local, List.mem_append, List.mem_singleton] at hl
      rcases hl with hl | rfl
      · exact Nat.lt_succ_of_lt (hlb l hl)
      · exact Nat.lt_succ_self _
    · simp only [declare_local]
      rw [List.pairwise_append]
      refine ⟨hlpw, List.pairwise_singleton _ _, ?_⟩
      intro a ha b hb'
      simp only [List.mem_singleton] at hb'
      subst hb'
      exact hlb a ha

/-! ## Lemmas about the parent-chain walks -/

theorem findScope_id {ctx : SemanticContext} {i : Nat} {s : Scope}
    (h : findScope ctx i = some s) : s.id = i := by
  have := List.find?_some h
  simpa using this

theorem findScope_mem {ctx : SemanticContext} {i : Nat} {s : Scope}
    (h : findScope ctx i = some s) : s ∈ ctx.scopes :=
  List.mem_of_find?_eq_some h

/-- With parents strictly below their children, the visibility walk can never
reach a scope id strictly above its start. -/
theorem within_walk_false_of_lt (ctx : SemanticContext)
    (hpar : ∀ s ∈ ctx.scopes, ∀ p, s.parent = some p → p < s.id) :
    ∀ (fuel scope_id target : Nat), scope_id < target →
      within_scope_walk ctx fuel scope_id target = false := by
  intro fuel
  induction fuel with
  | zero => intro s t _; rfl
  | succ f ih =>
    intro s t hst
    unfold within_scope_walk
    cases hfs : findScope ctx s with
    | none => rfl
    | some sc =>
      have hid : sc.id = s := findScope_id hfs
      have hne : (sc.id == t) = false := by simp [hid]; omega
      dsimp only
      rw [hne]
      simp only [Bool.false_eq_true, if_false]
      cases hp : sc.parent with
      | none => rfl
      | some p =>
        have hlt : p < sc.id := hpar sc (findScope_mem hfs) p hp
        exact ih p t (by omega)

/-- If every local named `name` lives in a scope strictly above `scope_id`
(as every local declared only inside a later block does), then it is
invisible from `scope_id`. -/
theorem within_scope_false_of_far (ctx : SemanticContext)
    (hpw : ctx.locals.Pairwise (fun a b => a.id < b.id))
    (hpar : ∀ s ∈ ctx.scopes, ∀ p, s.parent = some p → p < s.id)
    (l : Local) (hl : l ∈ ctx.locals) (scope_id : Nat) (hfar : scope_id < l.scope_id) :
    is_local_within_scope ctx scope_id l.id = false := by
  have hfl : findLocal ctx l.id = some l := by
    refine find?_mem_unique _ _ l hl (by simp) ?_
    intro x hx hpx
    exact pairwise_lt_id_unique hpw x l hx hl (by simpa using hpx)
  unfold is_local_within_scope
  rw [hfl]
  exact within_walk_false_of_lt ctx hpar _ _ _ hfar

/-- The root-directed parent walk (as in `is_local_within_scope`'s loop),
returning the parentless scope it ends at. -/
def root_walk (ctx : SemanticContext) : Nat → Nat → Option Scope
  | 0, _ => none
  | fuel + 1, scope_id =>
    match findScope ctx scope_id with
    | none => none
    | some s =>
      match s.parent with
      | none => some s
      | some p => root_walk ctx fuel p

theorem root_walk_reaches (ctx : SemanticContext)
    (hsurj : ∀ i, i < ctx.next_scope_id → ∃ s ∈ ctx.scopes, s.id = i)
    (hpar : ∀ s ∈ ctx.scopes, ∀ p, s.parent = some p → p < s.id) :
    ∀ (fuel i : Nat), i < fuel → i < ctx.next_scope_id →
      ∃ r, root_walk ctx fuel i = some r ∧ r.parent = none := by
  intro fuel
  induction fuel with
  | zero => intro i hif _; omega
  | succ f ih =>
    intro i hif hin
    obtain ⟨s, hs, hsid⟩ := hsurj i hin
    obtain ⟨t, ht0⟩ := find?_isSome_of_mem (fun s => s.id == i) ctx.scopes s hs (by simp [hsid])
    have ht : findScope ctx i = some t := ht0
    have htid : t.id = i := findScope_id ht
    have htm : t ∈ ctx.scopes := findScope_mem ht
    unfold root_walk
    rw [ht]
    dsimp only
    cases hp : t.parent with
    | none => exact ⟨t, rfl, hp⟩
    | some p =>
      have hlt : p < t.id := hpar t htm p hp
      exact ih p (by omega) (by omega)

/-! ## Lemmas about `resolve_named_local`

Both hold for *every* admissible iteration order of the locals map. -/

/-- Soundness: a successful lookup returns the id of a stored local bearing
the looked-up name and visible from the current scope. -/
theorem resolve_named_local_some (reorder : ReorderFn) (ctx : SemanticContext)
    (scope_id : Nat) (name : String) (local_id : Nat)
    (hperm : (reorder ctx.locals).Perm ctx.locals)
    (h : resolve_named_local reorder ctx scope_id name = some local_id) :
    ∃ l ∈ ctx.locals, l.id = local_id ∧ l.name = name ∧
      is_local_within_scope ctx scope_id local_id = true := by
  unfold resolve_named_local at h
  cases hf : (reorder ctx.locals).find? (fun l => l.name == name) with
  | none => rw [hf] at h; cases h
  | some l =>
    rw [hf] at h
    dsimp only at h
    have hl : l ∈ ctx.locals := hperm.mem_iff.mp (List.mem_of_find?_eq_some hf)
    have hname : l.name = name := by simpa using List.find?_some hf
    cases hvis : is_local_within_scope ctx scope_id l.id with
    | false => rw [hvis] at h; simp at h
    | true =>
      rw [hvis] at h
      simp only [if_true] at h
      cases h
      exact ⟨l, hl, rfl, hname, hvis⟩

/-- Failure-completeness: when no stored local with the looked-up name is
visible from the current scope, the lookup fails — whichever local the map's
iteration order presents first. -/
theorem resolve_named_local_none (reorder : ReorderFn) (ctx : SemanticContext)
    (scope_id : Nat) (name : String)
    (hperm : (reorder ctx.locals).Perm ctx.locals)
    (hall : ∀ l ∈ ctx.locals, l.name = name → is_local_within_scope ctx scope_id l.id = false) :
    resolve_named_local reorder ctx scope_id name = none := by
  unfold resolve_named_local
  cases hf : (reorder ctx.locals).find? (fun l => l.name == name) with
  | none => rfl
  | some l =>
    have hl : l ∈ ctx.locals := hperm.mem_iff.mp (List.mem_of_find?_eq_some hf)
    have hname : l.name = name := by simpa using List.find?_some hf
    have hvis := hall l hl hname
    dsimp only
    simp [hvis]

/-! ## Sanity checks against the repository's own expectations

The single integration test of the crate (`tests/syntax_errors.rs`), and the
remaining worked examples of the specification's §8 that no claim below
covers, reproduced on the embedding. -/

theorem missing_semicolon_integration_test :
    evalO id "let x = 9" = .parseError (9, .unexpectedToken [.semicolon] .eof) := rfl

theorem paren_overrides_precedence :
    evalO id "let x = (2 + 3) * 4;" = .ok [(0, Value.i32 20)] := rfl

theorem unary_binds_tighter :
    evalO id "let x = -2 + 3;" = .ok [(0, Value.i32 1)] := rfl

theorem unknown_identifier_fails :
    evalO id "y = 1;" = .semanticError (0, .unknownLocal "y") := rfl

/-! ## The claims -/

/-- Composition: once parsing succeeds, `eval` is the post-parse pipeline on
the parsed program. -/
theorem evalO_eq_evalFromAst (reorder : ReorderFn) (src : String)
    (p : Program) (ts : TokenStream)
    (h : parse_program (parse_fuel src.toList) (TokenStream.new src.toList) = .ok p ts) :
    evalO reorder src = evalFromAst reorder p := by
  unfold evalO
  rw [h]
  rfl

/-- The token stream after consuming an input of byte length `n`: empty, with
the idempotent EOF token cached. -/
def eofTs (n : Nat) : TokenStream :=
  { chars := [], pos := n, lookahead := some (n, .eof) }

def c1src : String := "let x = 10 - 3 - 2;"

/-- The tree the parser actually builds for `10 - 3 - 2`: the *right*-nested
`10 - (3 - 2)` (offsets 11 and 15 are the two `-` tokens). -/
def c1parsed : Program :=
  [.declareVariable 0 ⟨4, "x"⟩ false none
    (.binaryOp 11 .sub (.integerConstant 8 10)
      (.binaryOp 15 .sub (.integerConstant 13 3) (.integerConstant 17 2)))]

set_option maxHeartbeats 1000000 in
theorem c1_parse :
    parse_program (parse_fuel c1src.toList) (TokenStream.new c1src.toList) =
      .ok c1parsed (eofTs 19) := rfl

/-- C1: the claim states that `let x = 10 - 3 - 2;` evaluates to `x = 5`
with the left-associative parse `(10 - 3) - 2`.  The code disagrees: the
inner loop of `parse_expression_opp` (parser.rs line 140) admits
equal-precedence lookahead with `>=` and recurses at the lookahead's own
precedence, so `10 - 3 - 2` parses as `10 - (3 - 2)` and the pipeline ends
with `x = I32(9)`.  The cited Wikipedia algorithm and the specification
(left-assoc, `x = 5` "not 9") agree with the claim, so this is a code bug,
witnessed here by evaluating the embedded pipeline at the failing input. -/
theorem C1_right_associative_parse :
    parseStage c1src = .ok c1parsed (eofTs 19) ∧
    evalO id c1src = .ok [(0, Value.i32 9)] :=
  ⟨c1_parse, (evalO_eq_evalFromAst id c1src _ _ c1_parse).trans (by rfl)⟩

/-- The resolution state after resolving `\x7b let x = 1; \x7d let x = 2;`:
a root scope 0, a child scope 1, a local `x` owned by the child scope
(declared first), and a local `x` owned by the root (declared second). -/
def c2ctx : SemanticContext :=
  (declare_local
    (declare_local
      (declare_scope (declare_scope SemanticContext.new none).2 (some 0)).2
      1 "x" none).2
    0 "x" none).2

/-- C2 counterexample: the claim says lookup succeeds (with the nearest
declaration) whenever at least one local with the name is visible.  In
`c2ctx`, looked up from the root scope with the map in insertion order (one
admissible `HashMap` iteration order, `reorder := id`), `find` selects the
child-scope `x` first, the visibility filter rejects it, and the lookup
fails — even though the root-scope `x` (local id 1) is visible.
(`resolve_named_local` is not a nearest-visible search: it filters a single
order-dependent candidate.) -/
theorem C2_counterexample :
    resolve_named_local id c2ctx 0 "x" = none ∧
    ∃ l ∈ c2ctx.locals, l.name = "x" ∧ is_local_within_scope c2ctx 0 l.id = true := by
  refine ⟨rfl, ⟨⟨1, 0, none, "x"⟩, ?_, rfl, rfl⟩⟩
  decide

/-- C2 as amended: for every resolution state and every admissible iteration
order of the locals map, a successful lookup returns a stored local bearing
the looked-up name that is visible from the current scope, and the lookup
fails whenever no local with that name is visible; but (per the
counterexample) when several locals share the name, lookup may fail although
one of them is visible, and it returns the first match in map order, not
necessarily the nearest. -/
theorem C2_lookup_characterization (reorder : ReorderFn) (ctx : SemanticContext)
    (scope_id : Nat) (name : String)
    (hperm : (reorder ctx.locals).Perm ctx.locals) :
    (∀ local_id, resolve_named_local reorder ctx scope_id name = some local_id →
        ∃ l ∈ ctx.locals, l.id = local_id ∧ l.name = name ∧
          is_local_within_scope ctx scope_id local_id = true) ∧
    ((∀ l ∈ ctx.locals, l.name = name → is_local_within_scope ctx scope_id l.id = false) →
        resolve_named_local reorder ctx scope_id name = none) :=
  ⟨fun local_id h => resolve_named_local_some reorder ctx scope_id name local_id hperm h,
   fun hall => resolve_named_local_none reorder ctx scope_id name hperm hall⟩

theorem C2_lookup_characterization_witness :
    resolve_named_local id c2ctx 0 "z" = none :=
  (C2_lookup_characterization id c2ctx 0 "z" (List.Perm.refl _)).2 (by decide)

def c3src : String := "let b : bool = b + 1;"

def c3parsed : Program :=
  [.declareVariable 0 ⟨4, "b"⟩ false (some ⟨8, "bool"⟩)
    (.binaryOp 17 .add (.loc 15 "b") (.integerConstant 19 1))]

set_option maxHeartbeats 1000000 in
theorem c3_parse :
    parse_program (parse_fuel c3src.toList) (TokenStream.new c3src.toList) =
      .ok c3parsed (eofTs 21) := rfl

def c3ctx : SemanticContext :=
  { scopes := [⟨0, none, [0]⟩],
    locals := [⟨0, 0, some (.primitive .bool), "b"⟩],
    next_scope_id := 1, next_local_id := 1 }

def c3value : RastExpressionCtx :=
  .binaryOp 17 .add (.loc 15 0) (.integerConstant 19 1)

/-- C3: the claim says a `+`/`-`/`*` with a non-I32 operand in an
assignment's right-hand side makes the pipeline return a structured
invalid-binary-operands error and never panic.  The checker does construct
exactly that error — `resolve_expression` on the right-hand side of
`let b : bool = b + 1;` yields `InvalidBinaryOpArgs(Add, Bool, I32)` at the
operator's offset 17 — but `visit_statement` immediately `unwrap`s that
result (type_checker.rs line 115), so the pipeline panics instead of
returning the error.  Since every checked expression sits in an assignment's
right-hand side, no `InvalidBinaryOpArgs` can ever reach the caller: a code
bug (the `?`-based `TypeResult` plumbing and the specification both intend
propagation). -/
theorem C3_binary_error_swallowed_by_unwrap :
    parseStage c3src = .ok c3parsed (eofTs 21) ∧
    transform_program id c3parsed = .ok (c3ctx, [.assignLocal 0 0 c3value]) ∧
    resolve_expression c3ctx 0 c3value =
      .terr (17, .invalidBinaryOpArgs .add (.primitive .bool) (.primitive .i32)) ∧
    visit_statement c3ctx 0 (.assignLocal 0 0 c3value) = .panicked ∧
    evalO id c3src = .panicked :=
  ⟨c3_parse, rfl, rfl, rfl,
   (evalO_eq_evalFromAst id c3src _ _ c3_parse).trans (by rfl)⟩

/-- C4: after whitespace skipping, a leading character that is not a digit,
not an identifier head (letter or underscore), and none of the ten
punctuation characters, always lexes to an unknown-token error carrying that
character and its byte offset — never to an identifier or any other token. -/
theorem C4_unknown_token_error (cs : List Char) (pos : Nat) (c : Char)
    (rest : List Char) (p : Nat)
    (hskip : skip_whitespace cs pos = (c :: rest, p))
    (hdigit : is_ascii_digit c = false)
    (hident : is_valid_identifier_first c = false)
    (hpunct : c ∉ ['(', ')', lbraceChar, rbraceChar, '=', ';', ':', '+', '-', '*']) :
    read_token cs pos = .error (p, .unknownToken c) := by
  simp only [List.mem_cons, List.not_mem_nil, or_false, not_or] at hpunct
  obtain ⟨h1, h2, h3, h4, h5, h6, h7, h8, h9, h10⟩ := hpunct
  unfold read_token
  rw [hskip]
  dsimp only
  rw [hdigit, hident,
    beq_eq_false_iff_ne.mpr h1, beq_eq_false_iff_ne.mpr h2,
    beq_eq_false_iff_ne.mpr h3, beq_eq_false_iff_ne.mpr h4,
    beq_eq_false_iff_ne.mpr h5, beq_eq_false_iff_ne.mpr h6,
    beq_eq_false_iff_ne.mpr h7, beq_eq_false_iff_ne.mpr h8,
    beq_eq_false_iff_ne.mpr h9, beq_eq_false_iff_ne.mpr h10]
  simp

theorem C4_unknown_token_error_witness :
    read_token [' ', '@'] 0 = .error (1, .unknownToken '@') :=
  C4_unknown_token_error [' ', '@'] 0 '@' [] 1 rfl rfl rfl (by decide)

def c5src : String := "let x = 1; let x = 2; x = 3;"

def c5parsed : Program :=
  [.declareVariable 0 ⟨4, "x"⟩ false none (.integerConstant 8 1),
   .declareVariable 11 ⟨15, "x"⟩ false none (.integerConstant 19 2),
   .assignLocal 22 ⟨22, "x"⟩ (.integerConstant 26 3)]

set_option maxHeartbeats 1000000 in
theorem c5_parse :
    parse_program (parse_fuel c5src.toList) (TokenStream.new c5src.toList) =
      .ok c5parsed (eofTs 28) := rfl

/-- C5: the claim says two runs of `eval` on the same source always agree,
environments included.  `resolve_named_local` scans the locals `HashMap` in
its iteration order, which Rust does not fix and which differs between the
two `HashMap` instances of two runs.  For `c5src` (two same-scope locals
named `x`), the run whose map iterates in insertion order assigns `3` to the
first `x` while the run iterating in reverse order assigns it to the second:
the final environments differ at local id 0.  Determinism holds only
relative to a fixed iteration order, so the code can violate the claim — a
code bug rooted in the unkeyed `values()` scan. -/
theorem C5_order_dependent_result :
    evalO id c5src = .ok [(0, Value.i32 3), (1, Value.i32 2)] ∧
    evalO List.reverse c5src = .ok [(0, Value.i32 1), (1, Value.i32 3)] ∧
    (∀ l : List Local, (List.reverse l).Perm l) ∧
    envLookup [(0, Value.i32 3), (1, Value.i32 2)] 0 ≠
      envLookup [(0, Value.i32 1), (1, Value.i32 3)] 0 :=
  ⟨(evalO_eq_evalFromAst id c5src _ _ c5_parse).trans (by rfl),
   (evalO_eq_evalFromAst List.reverse c5src _ _ c5_parse).trans (by rfl),
   fun l => l.reverse_perm, by decide⟩

def c6src : String := "let x = 2 + 3 * 4;"

def c6parsed : Program :=
  [.declareVariable 0 ⟨4, "x"⟩ false none
    (.binaryOp 10 .add (.integerConstant 8 2)
      (.binaryOp 14 .mul (.integerConstant 12 3) (.integerConstant 16 4)))]

set_option maxHeartbeats 1000000 in
theorem c6_parse :
    parse_program (parse_fuel c6src.toList) (TokenStream.new c6src.toList) =
      .ok c6parsed (eofTs 18) := rfl

/-- C6: `*` (precedence 3) binds tighter than `+` (precedence 2), so
`let x = 2 + 3 * 4;` parses as `2 + (3 * 4)` (offsets 10 and 14 are the `+`
and `*` tokens) and the pipeline ends with `x = I32(14)` — for every
iteration order of the locals map, which this program never consults. -/
theorem C6_multiplication_binds_tighter (reorder : ReorderFn) :
    parseStage c6src = .ok c6parsed (eofTs 18) ∧
    evalO reorder c6src = .ok [(0, Value.i32 14)] :=
  ⟨c6_parse, (evalO_eq_evalFromAst reorder c6src _ _ c6_parse).trans (by rfl)⟩

theorem C6_multiplication_binds_tighter_witness :
    evalO id c6src = .ok [(0, Value.i32 14)] :=
  (C6_multiplication_binds_tighter id).2

def c7src : String := "let x = 1; let y : bool = x;"

def c7parsed : Program :=
  [.declareVariable 0 ⟨4, "x"⟩ false none (.integerConstant 8 1),
   .declareVariable 11 ⟨15, "y"⟩ false (some ⟨19, "bool"⟩) (.loc 26 "x")]

set_option maxHeartbeats 1000000 in
theorem c7_parse :
    parse_program (parse_fuel c7src.toList) (TokenStream.new c7src.toList) =
      .ok c7parsed (eofTs 28) := rfl

/-- C7: a local's type is fixed by its first type-checked assignment.  When
the target has no type yet, the checker adopts the value's type; once fixed,
a later assignment type-checks exactly when the value's type is assignable —
which for the primitive types is equality — and otherwise fails with
`NotAssignable` carrying the fixed (target) type and the actual type at the
statement's offset.  Concretely, `let x = 1; let y : bool = x;` fails with
`NotAssignable(Bool, I32)` at offset 11, the second statement. -/
theorem C7_first_write_fixes_type
    (ctx : SemanticContext) (scope_id pos local_id : Nat) (value : RastExpressionCtx)
    (l : Local) (value_type : TypeRef)
    (hfind : findLocal ctx local_id = some l)
    (hvis : is_local_within_scope ctx scope_id local_id = true)
    (hval : resolve_expression ctx scope_id value = .ok value_type) :
    (l.initial_type = none →
        visit_statement ctx scope_id (.assignLocal pos local_id value) =
          .ok (setLocalType ctx local_id (some value_type))) ∧
    (∀ t0, l.initial_type = some t0 →
        (is_assignable t0 value_type = true →
            visit_statement ctx scope_id (.assignLocal pos local_id value) = .ok ctx) ∧
        (is_assignable t0 value_type = false →
            visit_statement ctx scope_id (.assignLocal pos local_id value) =
              .terr (pos, .notAssignable t0 value_type))) ∧
    (∀ a b : PrimitiveType,
        is_assignable (.primitive a) (.primitive b) = true ↔ a = b) ∧
    evalO id c7src = .typeError (11, .notAssignable (.primitive .bool) (.primitive .i32)) := by
  have hbase : visit_statement ctx scope_id (.assignLocal pos local_id value) =
      (match l.initial_type with
       | none => .ok (setLocalType ctx local_id (some value_type))
       | some annotated_type =>
         if is_assignable annotated_type value_type then .ok ctx
         else .terr (pos, .notAssignable annotated_type value_type)) := by
    unfold visit_statement
    rw [hval]
    dsimp only
    rw [hvis]
    simp only [if_true]
    rw [hfind]
  refine ⟨?_, ?_, ?_, (evalO_eq_evalFromAst id c7src _ _ c7_parse).trans (by rfl)⟩
  · intro h
    rw [hbase, h]
  · intro t0 h
    rw [hbase, h]
    constructor
    · intro ha
      simp [ha]
    · intro ha
      simp [ha]
  · intro a b
    cases a <;> cases b <;> simp [is_assignable]

def c7wctx : SemanticContext :=
  { scopes := [⟨0, none, [0]⟩], locals := [⟨0, 0, none, "x"⟩],
    next_scope_id := 1, next_local_id := 1 }

theorem C7_first_write_fixes_type_witness :
    visit_statement c7wctx 0 (.assignLocal 0 0 (.integerConstant 2 5)) =
      .ok (setLocalType c7wctx 0 (some (.primitive .i32))) :=
  (C7_first_write_fixes_type c7wctx 0 0 0 (.integerConstant 2 5) ⟨0, 0, none, "x"⟩
      (.primitive .i32) rfl rfl rfl).1 rfl

/-- C8: in any reachable resolution state, if every local carrying a name is
owned by a scope created after the referencing scope — as is the case for a
name declared only inside a block when the reference sits after that block
in an outer scope — then the name resolves to nothing from that scope under
every map iteration order, and both an expression reference and an
assignment target fail with `UnknownLocal` carrying the name and the
reference's offset. -/
theorem C8_block_locals_invisible
    (ctx : SemanticContext) (hctx : Reachable ctx)
    (reorder : ReorderFn) (hperm : (reorder ctx.locals).Perm ctx.locals)
    (scope_id : Nat) (name : String)
    (hinner : ∀ l ∈ ctx.locals, l.name = name → scope_id < l.scope_id)
    (pos stmt_pos : Nat) (value : ExpressionCtx) :
    resolve_named_local reorder ctx scope_id name = none ∧
    transform_expression reorder ctx scope_id (.loc pos name) =
      .error (pos, .unknownLocal name) ∧
    transform_statement reorder ctx scope_id (.assignLocal stmt_pos ⟨pos, name⟩ value) =
      .error (pos, .unknownLocal name) := by
  obtain ⟨_, _, _, hpar, _, hlpw⟩ := hctx.invariant
  have hres : resolve_named_local reorder ctx scope_id name = none :=
    resolve_named_local_none reorder ctx scope_id name hperm
      (fun l hl hn => within_scope_false_of_far ctx hlpw hpar l hl scope_id (hinner l hl hn))
  refine ⟨hres, ?_, ?_⟩
  · unfold transform_expression
    rw [hres]
  · unfold transform_statement
    rw [hres]

/-- The resolution state after resolving `\x7b let x = 1; \x7d`: a root
scope, a block scope, and a single local `x` owned by the block scope. -/
def c8ctx : SemanticContext :=
  (declare_local (declare_scope (declare_scope SemanticContext.new none).2 (some 0)).2
    1 "x" none).2

theorem c8ctx_reachable : Reachable c8ctx := by
  apply Reachable.loc
  · apply Reachable.scope
    · apply Reachable.scope
      · exact Reachable.new
      · intro p hp; cases hp
    · intro p hp; cases hp; decide
  · decide

theorem C8_block_locals_invisible_witness :
    resolve_named_local id c8ctx 0 "x" = none :=
  (C8_block_locals_invisible c8ctx c8ctx_reachable id (List.Perm.refl _) 0 "x"
      (by decide) 5 5 (.integerConstant 0 1)).1

/-- C9: in every reachable resolution context, the scope map's entries carry
strictly increasing ids (so ids are issued monotonically and a parent —
whose id is strictly smaller — was inserted before its child), every
parent id is present in the map, and from every scope the parent-link walk
reaches a parentless root within `id + 1` steps — the scopes form a tree
with no cycles. -/
theorem C9_scope_tree_invariant (ctx : SemanticContext) (hctx : Reachable ctx) :
    ctx.scopes.Pairwise (fun a b => a.id < b.id) ∧
    (∀ s ∈ ctx.scopes, s.id < ctx.next_scope_id) ∧
    (∀ s ∈ ctx.scopes, ∀ p, s.parent = some p →
        p < s.id ∧ ∃ ps ∈ ctx.scopes, ps.id = p) ∧
    (∀ s ∈ ctx.scopes, ∃ r, root_walk ctx (s.id + 1) s.id = some r ∧ r.parent = none) := by
  obtain ⟨hb, hpw, hsurj, hpar, _, _⟩ := hctx.invariant
  refine ⟨hpw, hb, ?_, ?_⟩
  · intro s hs p hp
    have h1 : p < s.id := hpar s hs p hp
    have h2 : s.id < ctx.next_scope_id := hb s hs
    exact ⟨h1, hsurj p (by omega)⟩
  · intro s hs
    exact root_walk_reaches ctx hsurj hpar (s.id + 1) s.id (Nat.lt_succ_self _) (hb s hs)

/-- Two nested scopes, as left by resolving a program with one block. -/
def c9ctx : SemanticContext :=
  (declare_scope (declare_scope SemanticContext.new none).2 (some 0)).2

theorem c9ctx_reachable : Reachable c9ctx := by
  apply Reachable.scope
  · apply Reachable.scope
    · exact Reachable.new
    · intro p hp; cases hp
  · intro p hp; cases hp; decide

theorem C9_scope_tree_invariant_witness :
    ∃ r, root_walk c9ctx 2 1 = some r ∧ r.parent = none :=
  (C9_scope_tree_invariant c9ctx c9ctx_reachable).2.2.2 ⟨1, some 0, []⟩ (by decide)

def c10src : String := "let x = 4294967296;"

def c10parsed : Program :=
  [.declareVariable 0 ⟨4, "x"⟩ false none (.integerConstant 8 4294967296)]

set_option maxHeartbeats 1000000 in
theorem c10_parse :
    parse_program (parse_fuel c10src.toList) (TokenStream.new c10src.toList) =
      .ok c10parsed (eofTs 19) := rfl

/-- C10: an integer literal in the `i128` range passes resolution and type
checking unchanged (typed `I32` regardless of magnitude — the only range
check is the lexer's `i128` parse), and evaluation truncates it to its low
32 bits in two's complement (`wrap32`, the `as i32` cast).  In particular
the full pipeline on `let x = 4294967296;` ends with `x = I32(0)`. -/
theorem C10_literal_truncation (v : Int) (reorder : ReorderFn)
    (_h0 : 0 ≤ v) (_h1 : v < 2 ^ 127) :
    evalFromAst reorder [.declareVariable 0 ⟨4, "x"⟩ false none (.integerConstant 8 v)] =
      .ok [(0, Value.i32 (wrap32 v))] ∧
    resolve_expression SemanticContext.new 0 (.integerConstant 8 v) =
      .ok (.primitive .i32) ∧
    evalO id c10src = .ok [(0, Value.i32 0)] :=
  ⟨rfl, rfl, (evalO_eq_evalFromAst id c10src _ _ c10_parse).trans (by rfl)⟩

theorem C10_literal_truncation_witness :
    evalFromAst id [.declareVariable 0 ⟨4, "x"⟩ false none (.integerConstant 8 4294967296)] =
      .ok [(0, Value.i32 (wrap32 4294967296))] :=
  (C10_literal_truncation 4294967296 id (by norm_num) (by norm_num)).1

end Toylang
